import Mathlib

/-!
Verification development for a news-ingestion pipeline (`app.py`).

The program fetches RSS feed entries, normalizes them into a payload dict,
submits each payload to a Celery task `process_article`, which parses the
publication date, classifies the summary with spaCy lemmas, and inserts a
row into a SQL table whose `source_url` column carries a UNIQUE constraint.
Duplicate inserts raise `IntegrityError` and are skipped after a rollback;
any other exception is retried via `self.retry(countdown=10)` with
`max_retries = 3`.

The shallow embedding below models the task body faithfully, with the
external collaborators (database session, Celery retry driver, spaCy
lemmatizer, Python `strptime`) modelled as explicit state and parameters.
-/

namespace NewsApp

/-! ### Date parsing: model of `datetime.strptime(s, '%a, %d %b %Y %H:%M:%S %Z')`

CPython `_strptime` compiles the format to a case-insensitive regex:
abbreviated weekday names, a literal comma, runs of whitespace for literal
spaces, 1-2 digit day within 1..31, abbreviated month names, a 4-digit year,
1-2 digit hour/minute/second within their ranges, and a timezone name
(`GMT`/`UTC`); the whole string must be consumed and the day must be valid
for the month, else `ValueError` (modelled as `none`). -/

structure PDateTime where
  year : Nat
  month : Nat
  day : Nat
  hour : Nat
  minute : Nat
  second : Nat
  deriving DecidableEq, Repr

/-- Match a lowercase pattern against the input case-insensitively,
returning the remaining input. -/
def matchWord : List Char → List Char → Option (List Char)
  | [], cs => some cs
  | _ :: _, [] => none
  | p :: ps, c :: cs => if c.toLower = p then matchWord ps cs else none

/-- Match the first pattern of the list that is a prefix of the input,
returning its index and the remaining input. -/
def matchAlt : List String → List Char → Option (Nat × List Char)
  | [], _ => none
  | p :: ps, cs =>
    match matchWord p.data cs with
    | some rest => some (0, rest)
    | none =>
      match matchAlt ps cs with
      | some (i, rest) => some (i + 1, rest)
      | none => none

/-- Consume a maximal run of whitespace. -/
def skipWs : List Char → List Char
  | [] => []
  | c :: cs => if c.isWhitespace then skipWs cs else c :: cs

/-- Require at least one whitespace character, then consume the run. -/
def matchWs1 : List Char → Option (List Char)
  | c :: rest => if c.isWhitespace then some (skipWs rest) else none
  | [] => none

/-- Require an exact character. -/
def expectChar (c : Char) : List Char → Option (List Char)
  | d :: rest => if d = c then some rest else none
  | [] => none

def digitVal (c : Char) : Option Nat :=
  if c.isDigit then some (c.toNat - 48) else none

/-- Match one or two digits whose value lies in `lo..hi`, preferring two
digits, as the compiled regex alternation does. -/
def parse2 (lo hi : Nat) : List Char → Option (Nat × List Char)
  | c1 :: c2 :: rest =>
    match digitVal c1, digitVal c2 with
    | some d1, some d2 =>
      let v := d1 * 10 + d2
      if lo ≤ v ∧ v ≤ hi then some (v, rest)
      else if lo ≤ d1 ∧ d1 ≤ hi then some (d1, c2 :: rest)
      else none
    | some d1, none => if lo ≤ d1 ∧ d1 ≤ hi then some (d1, c2 :: rest) else none
    | none, _ => none
  | [c1] =>
    match digitVal c1 with
    | some d1 => if lo ≤ d1 ∧ d1 ≤ hi then some (d1, []) else none
    | none => none
  | [] => none

/-- Match exactly four digits. -/
def parse4 : List Char → Option (Nat × List Char)
  | c1 :: c2 :: c3 :: c4 :: rest =>
    match digitVal c1, digitVal c2, digitVal c3, digitVal c4 with
    | some a, some b, some c, some d => some (((a * 10 + b) * 10 + c) * 10 + d, rest)
    | _, _, _, _ => none
  | _ => none

def weekdayAbbrs : List String := ["mon", "tue", "wed", "thu", "fri", "sat", "sun"]

def monthAbbrs : List String :=
  ["jan", "feb", "mar", "apr", "may", "jun", "jul", "aug", "sep", "oct", "nov", "dec"]

def tzNames : List String := ["utc", "gmt"]

def isLeapYear (y : Nat) : Bool :=
  (y % 4 == 0 && y % 100 != 0) || y % 400 == 0

def daysInMonth (y m : Nat) : Nat :=
  if m = 2 then (if isLeapYear y then 29 else 28)
  else if m = 4 ∨ m = 6 ∨ m = 9 ∨ m = 11 then 30
  else 31

/-- Parse `%d %b %Y` (day, month, year) and return the values with the
remaining input. -/
def parseDMY (cs : List Char) : Option (Nat × Nat × Nat × List Char) := do
  let dday ← parse2 1 31 cs
  let r3 ← matchWs1 dday.2
  let mo ← matchAlt monthAbbrs r3
  let r4 ← matchWs1 mo.2
  let yr ← parse4 r4
  some (dday.1, mo.1 + 1, yr.1, yr.2)

/-- Parse `%H:%M:%S` and return the values with the remaining input. -/
def parseHMS (cs : List Char) : Option (Nat × Nat × Nat × List Char) := do
  let hh ← parse2 0 23 cs
  let r6 ← expectChar ':' hh.2
  let mm ← parse2 0 59 r6
  let r7 ← expectChar ':' mm.2
  let ss ← parse2 0 61 r7
  some (hh.1, mm.1, ss.1, ss.2)

/-- Model of `datetime.strptime(s, '%a, %d %b %Y %H:%M:%S %Z')`: `none`
models the `ValueError` raised on a parse failure. -/
def parseDate (s : String) : Option PDateTime := do
  let w ← matchAlt weekdayAbbrs s.data
  let r1 ← expectChar ',' w.2
  let r2 ← matchWs1 r1
  let dmy ← parseDMY r2
  let r5 ← matchWs1 dmy.2.2.2
  let hms ← parseHMS r5
  let r8 ← matchWs1 hms.2.2.2
  let tz ← matchAlt tzNames r8
  if tz.2 = [] ∧ dmy.1 ≤ daysInMonth dmy.2.2.1 dmy.2.1 then
    some ⟨dmy.2.2.1, dmy.2.1, dmy.1, hms.1, hms.2.1, hms.2.2.1⟩
  else none

/-! ### Classification: `classify_article` over spaCy lemmas

`nlp(content)` produces a sequence of tokens, each carrying a lemma
(`token.lemma_`); the lemmatizer itself is an external model, so it is a
parameter here. -/

structure Token where
  text : String
  lemma_ : String
  deriving DecidableEq, Repr

/-- Embedding of `classify_article` (`app.py` lines 99-107): returns
"Terrorism" if any token lemma is "terror", else "Natural Disasters" if any
token lemma is "earthquake", else "Others". -/
def classify_article (nlp : String → List Token) (content : String) : String :=
  let doc := nlp content
  if doc.any (fun token => token.lemma_ == "terror") then "Terrorism"
  else if doc.any (fun token => token.lemma_ == "earthquake") then "Natural Disasters"
  else "Others"

/-! ### Data model -/

/-- The serialized task payload built by `process_feeds` (the
`article_data` dict): all four fields are strings. -/
structure ArticleInput where
  title : String
  summary : String
  pub_date : String
  source_url : String
  deriving DecidableEq, Repr

/-- A row of the `news_articles` table (`NewsArticle`); the surrogate `id`
column is assigned by the store and irrelevant to the claims. -/
structure Article where
  title : String
  summary : String
  pub_date : PDateTime
  source_url : String
  category : String
  deriving DecidableEq, Repr

/-- A raw feed entry as consumed by `process_feeds`: `entry.get(key,
default)` on a dict, so each field is optional. -/
structure RawEntry where
  title : Option String
  summary : Option String
  published : Option String
  link : Option String
  deriving DecidableEq, Repr

/-- Embedding of the `article_data` construction in `process_feeds`
(`app.py` lines 126-132): each missing field is replaced by its sentinel
string via `entry.get`. -/
def normalize_entry (e : RawEntry) : ArticleInput :=
  { title := e.title.getD "No title available"
    summary := e.summary.getD "No summary available"
    pub_date := e.published.getD "No publication date available"
    source_url := e.link.getD "No link available" }

/-! ### The store session

The global SQLAlchemy `session` against the `news_articles` table.
`committed` holds the visible rows; `pending` holds rows passed to
`session.add` whose transaction has not been committed or rolled back;
`needsRollback` records a failed flush/commit after which SQLAlchemy
refuses further commits until `rollback()` is called. -/

structure SessionState where
  committed : List Article
  pending : List Article
  needsRollback : Bool
  deriving DecidableEq, Repr

def emptySession : SessionState := ⟨[], [], false⟩

/-- Does some row of `l` have source URL `u`? -/
def urlOccurs (u : String) (l : List Article) : Bool :=
  l.any (fun a => a.source_url == u)

/-- All rows of `l` have pairwise distinct source URLs. -/
def uniqueUrls : List Article → Bool
  | [] => true
  | a :: rest => !(urlOccurs a.source_url rest) && uniqueUrls rest

/-- Number of rows of `l` with source URL `u`. -/
def countUrl (u : String) (l : List Article) : Nat :=
  (l.filter (fun a => a.source_url == u)).length

/-- The UNIQUE constraint on `source_url`: inserting `pending` into
`committed` succeeds iff no pending row collides with a committed row or
with another pending row. -/
def canInsert (committed pending : List Article) : Bool :=
  pending.all (fun a => !(urlOccurs a.source_url committed)) && uniqueUrls pending

/-- How the store answers one commit: healthy, a transient fatal failure
(connectivity and the like, surfacing as a non-IntegrityError exception),
or an integrity violation other than the `source_url` duplicate (for
example a NOT NULL or CHECK violation, also surfacing as
`IntegrityError`). -/
inductive StoreFault
  | healthy
  | fatalErr
  | integrityOther
  deriving DecidableEq, Repr

/-- Exception class raised by `session.commit()`, as seen by the task's
`except` clauses: none, `IntegrityError`, or any other exception. -/
inductive CommitResult
  | ok
  | integrityError
  | otherError
  deriving DecidableEq, Repr

/-- Model of `session.commit()`. A session whose previous commit failed
raises (`PendingRollbackError`, a non-IntegrityError) until rolled back.
Otherwise the store may fail transiently or with a non-duplicate integrity
violation per `fault`; a healthy store enforces the UNIQUE constraint on
`source_url`, raising `IntegrityError` on a duplicate. A failed commit
leaves the session dirty (`needsRollback`); a successful one publishes the
pending rows. -/
def sessionCommit (fault : StoreFault) (s : SessionState) : SessionState × CommitResult :=
  if s.needsRollback then (s, .otherError)
  else
    match fault with
    | .fatalErr => ({ s with needsRollback := true }, .otherError)
    | .integrityOther => ({ s with needsRollback := true }, .integrityError)
    | .healthy =>
      if canInsert s.committed s.pending then
        ({ committed := s.committed ++ s.pending, pending := [], needsRollback := false }, .ok)
      else ({ s with needsRollback := true }, .integrityError)

/-! ### The Celery task `process_article` -/

inductive LogLevel
  | info
  | warning
  | error
  deriving DecidableEq, Repr

/-- How one execution of the task body ends.

`succeeded`: normal return after a successful commit. `skipped`: normal
return from the `except IntegrityError` handler after a rollback and a
warning log. `retryScheduled c`: `raise self.retry(exc=e, countdown=c)`
re-queued the task (Celery `Retry` control-flow exception). `retriesExhausted`:
`self.retry` found the retry budget spent and re-raised the original
exception after the error log (terminal failure). `uncaughtError`: an
exception escaped the task body outside the `try` block, unseen by any
handler (terminal failure with no retry and no log). -/
inductive Outcome
  | succeeded
  | skipped
  | retryScheduled (countdown : Nat)
  | retriesExhausted
  | uncaughtError
  deriving DecidableEq, Repr

/-- Did the execution exit through the task's own code (a return or one of
its `except` handlers / its `self.retry` call), as opposed to an exception
escaping unhandled? -/
def handledExit : Outcome → Bool
  | .uncaughtError => false
  | _ => true

def isRetry : Outcome → Bool
  | .retryScheduled _ => true
  | _ => false

structure TaskResult where
  state : SessionState
  outcome : Outcome
  logs : List LogLevel
  deriving DecidableEq, Repr

/-- `max_retries=3` on the task decorator. -/
def max_retries : Nat := 3

/-- Embedding of the task body `process_article` (`app.py` lines 46-78).

`retries` is Celery's `self.request.retries`, the number of retries already
performed before this execution. The body: read the payload fields, parse
`pub_date` with `strptime` (OUTSIDE the `try`: a parse failure propagates
uncaught, with no log), log at info level, then inside `try`: classify the
summary, `session.add` the new row, `session.commit()`. `except
IntegrityError`: `session.rollback()`, warning log, return. `except
Exception`: error log, `raise self.retry(exc=e, countdown=10)`, which
re-queues when `retries + 1 ≤ max_retries` and otherwise re-raises the
original exception. -/
def process_article (nlp : String → List Token) (fault : StoreFault) (retries : Nat)
    (s : SessionState) (article_data : ArticleInput) : TaskResult :=
  match parseDate article_data.pub_date with
  | none => ⟨s, .uncaughtError, []⟩
  | some pub_date =>
    let category := classify_article nlp article_data.summary
    let new_article : Article :=
      { title := article_data.title
        summary := article_data.summary
        pub_date := pub_date
        source_url := article_data.source_url
        category := category }
    let s1 : SessionState := { s with pending := s.pending ++ [new_article] }
    match sessionCommit fault s1 with
    | (s2, .ok) => ⟨s2, .succeeded, [.info, .info]⟩
    | (s2, .integrityError) =>
      ⟨{ s2 with pending := [], needsRollback := false }, .skipped, [.info, .warning]⟩
    | (s2, .otherError) =>
      if retries < max_retries then ⟨s2, .retryScheduled 10, [.info, .error]⟩
      else ⟨s2, .retriesExhausted, [.info, .error]⟩

/-- The Celery driver: execute the task, and while it asks for a retry,
execute it again with the retry counter incremented. Fuel bounds the
recursion; `max_retries + 1` executions always suffice. Returns the final
session state and the outcome of every execution in order. -/
def driveFrom : Nat → (Nat → StoreFault) → (String → List Token) → ArticleInput → Nat →
    SessionState → SessionState × List Outcome
  | 0, _, _, _, _, s => (s, [])
  | fuel + 1, faults, nlp, d, retries, s =>
    let r := process_article nlp (faults retries) retries s d
    if isRetry r.outcome then
      let rest := driveFrom fuel faults nlp d (retries + 1) r.state
      (rest.1, r.outcome :: rest.2)
    else (r.state, [r.outcome])

/-- Run one task to completion from a fresh submission (`retries = 0`). -/
def driveTask (faults : Nat → StoreFault) (nlp : String → List Token) (d : ArticleInput)
    (s : SessionState) : SessionState × List Outcome :=
  driveFrom (max_retries + 1) faults nlp d 0 s

/-- Run a sequence of task executions (arbitrary payloads, store faults and
retry counters) against the shared session, returning the final state. -/
def runSeq (nlp : String → List Token) (steps : List (StoreFault × Nat × ArticleInput))
    (s : SessionState) : SessionState :=
  match steps with
  | [] => s
  | step :: rest => runSeq nlp rest (process_article nlp step.1 step.2.1 s step.2.2).state

/-! ### Concrete inputs for witnesses -/

/-- Whitespace-splitting helper for the toy lemmatizer. -/
def wordsAux : List Char → List Char → List String
  | [], acc => if acc.isEmpty then [] else [String.mk acc.reverse]
  | c :: cs, acc =>
    if c = ' ' then
      if acc.isEmpty then wordsAux cs [] else String.mk acc.reverse :: wordsAux cs []
    else wordsAux cs (c :: acc)

/-- A toy lemmatizer standing in for the spaCy model in concrete runs: each
whitespace-separated word is a token that is its own lemma. -/
def toyNlp (text : String) : List Token :=
  (wordsAux text.data []).map (fun w => { text := w, lemma_ := w })

/-- The end-to-end scenario entry of the spec. -/
def sampleInput : ArticleInput :=
  { title := "Quake hits region"
    summary := "A major earthquake struck today"
    pub_date := "Mon, 01 Jan 2024 10:00:00 GMT"
    source_url := "http://example.com/a1" }

/-- A payload whose date string does not parse. -/
def badDateInput : ArticleInput :=
  { title := "t"
    summary := "s"
    pub_date := "not a date"
    source_url := "http://example.com/bad" }

/-- The row that `process_article` builds from payload `d` once the date
parsed to `ts`: the argument of `session.add`. -/
def mkArticle (nlp : String → List Token) (d : ArticleInput) (ts : PDateTime) : Article :=
  { title := d.title
    summary := d.summary
    pub_date := ts
    source_url := d.source_url
    category := classify_article nlp d.summary }

/-! ### Basic lemmas about the store model -/

theorem urlOccurs_cons (u : String) (a : Article) (l : List Article) :
    urlOccurs u (a :: l) = ((a.source_url == u) || urlOccurs u l) := by
  simp [urlOccurs]

theorem urlOccurs_append (u : String) (l1 l2 : List Article) :
    urlOccurs u (l1 ++ l2) = (urlOccurs u l1 || urlOccurs u l2) := by
  simp [urlOccurs]

theorem countUrl_append (u : String) (l1 l2 : List Article) :
    countUrl u (l1 ++ l2) = countUrl u l1 + countUrl u l2 := by
  simp [countUrl]

theorem countUrl_eq_zero {u : String} {l : List Article} (h : urlOccurs u l = false) :
    countUrl u l = 0 := by
  induction l with
  | nil => rfl
  | cons a rest ih =>
    rw [urlOccurs_cons, Bool.or_eq_false_iff] at h
    simp only [countUrl, List.filter_cons, h.1, List.length_nil]
    exact ih h.2

theorem countUrl_single_self (a : Article) : countUrl a.source_url [a] = 1 := by
  simp [countUrl]

theorem uniqueUrls_cons (a : Article) (l : List Article) :
    uniqueUrls (a :: l) = (!(urlOccurs a.source_url l) && uniqueUrls l) := rfl

theorem countUrl_eq_one_of_unique {u : String} {l : List Article}
    (hu : uniqueUrls l = true) (ho : urlOccurs u l = true) : countUrl u l = 1 := by
  induction l with
  | nil => simp [urlOccurs] at ho
  | cons a rest ih =>
    rw [uniqueUrls_cons, Bool.and_eq_true, Bool.not_eq_true'] at hu
    rw [urlOccurs_cons, Bool.or_eq_true] at ho
    by_cases ha : (a.source_url == u) = true
    · have hau : a.source_url = u := by simpa using ha
      have hrest : urlOccurs u rest = false := hau ▸ hu.1
      have h0 : countUrl u rest = 0 := countUrl_eq_zero hrest
      simp only [countUrl] at h0 ⊢
      simp [List.filter_cons, ha, h0]
    · have ho' : urlOccurs u rest = true := by
        rcases ho with h | h
        · exact absurd h ha
        · exact h
      simp only [countUrl, List.filter_cons, ha, if_false]
      exact ih hu.2 ho'

theorem uniqueUrls_append {l1 l2 : List Article} (h1 : uniqueUrls l1 = true)
    (h2 : uniqueUrls l2 = true)
    (hd : ∀ a ∈ l2, urlOccurs a.source_url l1 = false) :
    uniqueUrls (l1 ++ l2) = true := by
  induction l1 with
  | nil => simpa using h2
  | cons a rest ih =>
    rw [uniqueUrls_cons, Bool.and_eq_true, Bool.not_eq_true'] at h1
    rw [List.cons_append, uniqueUrls_cons, Bool.and_eq_true, Bool.not_eq_true']
    refine ⟨?_, ih h1.2 (fun b hb => ?_)⟩
    · rw [urlOccurs_append, Bool.or_eq_false_iff]
      refine ⟨h1.1, ?_⟩
      by_contra hocc
      rw [Bool.not_eq_false] at hocc
      simp only [urlOccurs, List.any_eq_true, beq_iff_eq] at hocc
      obtain ⟨b, hb, hbu⟩ := hocc
      have := hd b hb
      rw [urlOccurs_cons, Bool.or_eq_false_iff] at this
      have : (a.source_url == b.source_url) = false := this.1
      simp [hbu] at this
    · have := hd b hb
      rw [urlOccurs_cons, Bool.or_eq_false_iff] at this
      exact this.2

theorem canInsert_spec {l1 l2 : List Article} : canInsert l1 l2 = true ↔
    (∀ a ∈ l2, urlOccurs a.source_url l1 = false) ∧ uniqueUrls l2 = true := by
  simp [canInsert, List.all_eq_true, Bool.not_eq_true']

/-! ### Lemmas about `sessionCommit` -/

theorem sessionCommit_fatal (s : SessionState) :
    sessionCommit .fatalErr s = ({ s with needsRollback := true }, .otherError) := by
  obtain ⟨c, p, rb⟩ := s
  cases rb <;> simp [sessionCommit]

theorem sessionCommit_integrityOther (s : SessionState) (hrb : s.needsRollback = false) :
    sessionCommit .integrityOther s = ({ s with needsRollback := true }, .integrityError) := by
  simp [sessionCommit, hrb]

theorem sessionCommit_healthy_ok (s : SessionState) (hrb : s.needsRollback = false)
    (hins : canInsert s.committed s.pending = true) :
    sessionCommit .healthy s =
      (⟨s.committed ++ s.pending, [], false⟩, .ok) := by
  simp [sessionCommit, hrb, hins]

theorem sessionCommit_healthy_dup (s : SessionState) (hrb : s.needsRollback = false)
    (hins : canInsert s.committed s.pending = false) :
    sessionCommit .healthy s = ({ s with needsRollback := true }, .integrityError) := by
  simp [sessionCommit, hrb, hins]

theorem sessionCommit_committed_unique (fault : StoreFault) (s : SessionState)
    (h : uniqueUrls s.committed = true) :
    uniqueUrls (sessionCommit fault s).1.committed = true := by
  by_cases hrb : s.needsRollback = true
  · simp [sessionCommit, hrb, h]
  · rw [Bool.not_eq_true] at hrb
    cases fault with
    | fatalErr => simp [sessionCommit, hrb, h]
    | integrityOther => simp [sessionCommit, hrb, h]
    | healthy =>
      by_cases hins : canInsert s.committed s.pending = true
      · rw [sessionCommit_healthy_ok s hrb hins]
        obtain ⟨hd, hu⟩ := canInsert_spec.mp hins
        exact uniqueUrls_append h hu hd
      · rw [Bool.not_eq_true] at hins
        simp [sessionCommit, hrb, hins, h]

/-! ### Lemmas about `process_article` -/

theorem process_article_none (nlp : String → List Token) (fault : StoreFault) (retries : Nat)
    (s : SessionState) (d : ArticleInput) (h : parseDate d.pub_date = none) :
    process_article nlp fault retries s d = ⟨s, .uncaughtError, []⟩ := by
  simp [process_article, h]

theorem process_article_some (nlp : String → List Token) (fault : StoreFault) (retries : Nat)
    (s : SessionState) (d : ArticleInput) (ts : PDateTime)
    (h : parseDate d.pub_date = some ts) :
    process_article nlp fault retries s d =
      (match sessionCommit fault { s with pending := s.pending ++ [mkArticle nlp d ts] } with
       | (s2, .ok) => ⟨s2, .succeeded, [.info, .info]⟩
       | (s2, .integrityError) =>
         ⟨{ s2 with pending := [], needsRollback := false }, .skipped, [.info, .warning]⟩
       | (s2, .otherError) =>
         if retries < max_retries then ⟨s2, .retryScheduled 10, [.info, .error]⟩
         else ⟨s2, .retriesExhausted, [.info, .error]⟩) := by
  simp [process_article, h, mkArticle]

theorem canInsert_single (cs : List Article) (a : Article) :
    canInsert cs [a] = !(urlOccurs a.source_url cs) := by
  simp [canInsert, uniqueUrls, urlOccurs]

theorem urlOccurs_eq_false_iff (u : String) (l : List Article) :
    urlOccurs u l = false ↔ ∀ a ∈ l, a.source_url ≠ u := by
  rw [← Bool.not_eq_true]
  simp [urlOccurs, List.any_eq_true]

theorem uniqueUrls_iff_pairwise (l : List Article) :
    uniqueUrls l = true ↔ l.Pairwise (fun a b => a.source_url ≠ b.source_url) := by
  induction l with
  | nil => simp [uniqueUrls]
  | cons a rest ih =>
    rw [uniqueUrls_cons, Bool.and_eq_true, Bool.not_eq_true', List.pairwise_cons, ← ih,
      urlOccurs_eq_false_iff]
    constructor
    · rintro ⟨h1, h2⟩
      exact ⟨fun b hb => (h1 b hb).symm, h2⟩
    · rintro ⟨h1, h2⟩
      exact ⟨fun b hb => (h1 b hb).symm, h2⟩

theorem process_article_fatal_eq (nlp : String → List Token) (retries : Nat)
    (s : SessionState) (d : ArticleInput) (ts : PDateTime)
    (h : parseDate d.pub_date = some ts) :
    process_article nlp .fatalErr retries s d =
      if retries < max_retries then
        ⟨{ s with pending := s.pending ++ [mkArticle nlp d ts], needsRollback := true },
          .retryScheduled 10, [.info, .error]⟩
      else
        ⟨{ s with pending := s.pending ++ [mkArticle nlp d ts], needsRollback := true },
          .retriesExhausted, [.info, .error]⟩ := by
  rw [process_article_some nlp .fatalErr retries s d ts h, sessionCommit_fatal]

theorem process_article_preserves_unique (nlp : String → List Token) (fault : StoreFault)
    (retries : Nat) (s : SessionState) (d : ArticleInput)
    (h : uniqueUrls s.committed = true) :
    uniqueUrls (process_article nlp fault retries s d).state.committed = true := by
  cases hp : parseDate d.pub_date with
  | none => rw [process_article_none nlp fault retries s d hp]; exact h
  | some ts =>
    rw [process_article_some nlp fault retries s d ts hp]
    have hcu := sessionCommit_committed_unique fault
      { s with pending := s.pending ++ [mkArticle nlp d ts] } h
    rcases hsc : sessionCommit fault { s with pending := s.pending ++ [mkArticle nlp d ts] }
      with ⟨s2, res⟩
    rw [hsc] at hcu
    cases res with
    | ok => exact hcu
    | integrityError => exact hcu
    | otherError =>
      by_cases hr : retries < max_retries <;> simp [hr] <;> exact hcu

theorem runSeq_preserves_unique (nlp : String → List Token)
    (steps : List (StoreFault × Nat × ArticleInput)) :
    ∀ s : SessionState, uniqueUrls s.committed = true →
      uniqueUrls (runSeq nlp steps s).committed = true := by
  induction steps with
  | nil => intro s h; exact h
  | cons st rest ih =>
    intro s h
    exact ih _ (process_article_preserves_unique nlp st.1 st.2.1 s st.2.2 h)

/-! ### Claim theorems -/

/-- Claim C4: an `ArticleInput` whose `pub_date` string does not parse
under the expected source format makes `process_article` fail terminally at
once: the session is unchanged, the outcome is the uncaught-exception
terminal failure (the `strptime` call sits before the `try` block), the
retry primitive is never invoked (no `retryScheduled` outcome, so no retry
attempt is consumed), and the Celery driver performs exactly one
execution. -/
theorem date_parse_failure_no_retry (nlp : String → List Token) (fault : StoreFault)
    (retries : Nat) (s : SessionState) (d : ArticleInput)
    (h : parseDate d.pub_date = none) :
    process_article nlp fault retries s d = ⟨s, .uncaughtError, []⟩ ∧
    (driveTask (fun _ => fault) nlp d s).2 = [.uncaughtError] := by
  refine ⟨process_article_none nlp fault retries s d h, ?_⟩
  have hp := process_article_none nlp fault 0 s d h
  simp [driveTask, driveFrom, max_retries, hp, isRetry]

/-- Witness for C4 at a concrete unparseable payload. -/
theorem date_parse_failure_no_retry_witness :
    process_article toyNlp .healthy 0 emptySession badDateInput =
      ⟨emptySession, .uncaughtError, []⟩ ∧
    (driveTask (fun _ => .healthy) toyNlp badDateInput emptySession).2 = [.uncaughtError] :=
  date_parse_failure_no_retry toyNlp .healthy 0 emptySession badDateInput (by decide)

/-- Claim C10: a feed entry whose source omits `published` is normalized
with the sentinel "No publication date available"; that sentinel does not
parse under '%a, %d %b %Y %H:%M:%S %Z', so the entry's task takes the
date-parse failure path (uncaught, unlogged, unretried) and the entry is
never persisted: the session is returned unchanged. -/
theorem missing_published_never_persisted (e : RawEntry) (hp : e.published = none)
    (nlp : String → List Token) (fault : StoreFault) (retries : Nat) (s : SessionState) :
    (normalize_entry e).pub_date = "No publication date available" ∧
    parseDate "No publication date available" = none ∧
    process_article nlp fault retries s (normalize_entry e) = ⟨s, .uncaughtError, []⟩ := by
  have h1 : (normalize_entry e).pub_date = "No publication date available" := by
    simp [normalize_entry, hp]
  refine ⟨h1, by decide, ?_⟩
  apply process_article_none
  rw [h1]
  decide

/-- Witness for C10 at a concrete entry with no `published` field. -/
theorem missing_published_never_persisted_witness :
    (normalize_entry ⟨some "t", some "s", none, some "u"⟩).pub_date =
      "No publication date available" ∧
    parseDate "No publication date available" = none ∧
    process_article toyNlp .healthy 0 emptySession
        (normalize_entry ⟨some "t", some "s", none, some "u"⟩) =
      ⟨emptySession, .uncaughtError, []⟩ :=
  missing_published_never_persisted ⟨some "t", some "s", none, some "u"⟩ rfl
    toyNlp .healthy 0 emptySession

/-- Claim C8: normalization is total (it is a function and cannot raise)
and substitutes the documented sentinel for each missing field. -/
theorem normalize_entry_sentinels (e : RawEntry) :
    (e.title = none → (normalize_entry e).title = "No title available") ∧
    (e.summary = none → (normalize_entry e).summary = "No summary available") ∧
    (e.published = none → (normalize_entry e).pub_date = "No publication date available") ∧
    (e.link = none → (normalize_entry e).source_url = "No link available") := by
  refine ⟨fun h => ?_, fun h => ?_, fun h => ?_, fun h => ?_⟩ <;> simp [normalize_entry, h]

/-- Witness for C8 at the entry missing every field. -/
theorem normalize_entry_sentinels_witness :
    (normalize_entry ⟨none, none, none, none⟩).title = "No title available" ∧
    (normalize_entry ⟨none, none, none, none⟩).summary = "No summary available" ∧
    (normalize_entry ⟨none, none, none, none⟩).pub_date = "No publication date available" ∧
    (normalize_entry ⟨none, none, none, none⟩).source_url = "No link available" :=
  ⟨(normalize_entry_sentinels _).1 rfl, (normalize_entry_sentinels _).2.1 rfl,
    (normalize_entry_sentinels _).2.2.1 rfl, (normalize_entry_sentinels _).2.2.2 rfl⟩

/-- Claim C9: `classify_article` is a pure function (hence deterministic
and total); a text with a token lemmatizing to "terror" classifies as
"Terrorism"; one with a token lemmatizing to "earthquake" and none to
"terror" classifies as "Natural Disasters"; all other text classifies as
"Others". -/
theorem classify_article_deterministic_rules (nlp : String → List Token) (text : String) :
    ((∃ t ∈ nlp text, t.lemma_ = "terror") → classify_article nlp text = "Terrorism") ∧
    ((¬ ∃ t ∈ nlp text, t.lemma_ = "terror") →
      (∃ t ∈ nlp text, t.lemma_ = "earthquake") →
      classify_article nlp text = "Natural Disasters") ∧
    ((¬ ∃ t ∈ nlp text, t.lemma_ = "terror") →
      (¬ ∃ t ∈ nlp text, t.lemma_ = "earthquake") →
      classify_article nlp text = "Others") ∧
    classify_article nlp text = classify_article nlp text := by
  have hiff : ∀ w : String,
      ((nlp text).any (fun t => t.lemma_ == w) = true) ↔ ∃ t ∈ nlp text, t.lemma_ = w := by
    intro w
    simp [List.any_eq_true]
  refine ⟨fun h => ?_, fun h1 h2 => ?_, fun h1 h2 => ?_, rfl⟩
  · simp [classify_article, (hiff "terror").mpr h]
  · have hn : (nlp text).any (fun t => t.lemma_ == "terror") = false := by
      rw [← Bool.not_eq_true]
      exact fun hc => h1 ((hiff "terror").mp hc)
    simp [classify_article, hn, (hiff "earthquake").mpr h2]
  · have hn1 : (nlp text).any (fun t => t.lemma_ == "terror") = false := by
      rw [← Bool.not_eq_true]
      exact fun hc => h1 ((hiff "terror").mp hc)
    have hn2 : (nlp text).any (fun t => t.lemma_ == "earthquake") = false := by
      rw [← Bool.not_eq_true]
      exact fun hc => h2 ((hiff "earthquake").mp hc)
    simp [classify_article, hn1, hn2]

/-- Witness for C9 under the toy lemmatizer on the spec's three shapes of
text. -/
theorem classify_article_deterministic_rules_witness :
    classify_article toyNlp "the terror threat" = "Terrorism" ∧
    classify_article toyNlp "A major earthquake struck today" = "Natural Disasters" ∧
    classify_article toyNlp "unrelated content" = "Others" :=
  ⟨(classify_article_deterministic_rules toyNlp "the terror threat").1 (by decide),
    (classify_article_deterministic_rules toyNlp "A major earthquake struck today").2.1
      (by decide) (by decide),
    (classify_article_deterministic_rules toyNlp "unrelated content").2.2.1
      (by decide) (by decide)⟩

/-- Counterexample to claim C5: on a payload whose `pub_date` does not
parse, the execution does not end in a typed outcome — the `ValueError`
from `strptime` (which the task calls before entering its `try` block)
escapes `process_article` unhandled, and nothing is logged, so there is no
dead-letter visibility either. -/
theorem uncaught_exception_counterexample :
    handledExit (process_article toyNlp .healthy 0 emptySession badDateInput).outcome = false ∧
    (process_article toyNlp .healthy 0 emptySession badDateInput).logs = [] := by
  decide

/-- Claim C5 amended: for every `ArticleInput` whose `pub_date` parses,
every execution exits through the task's own handlers with a typed outcome
(Succeeded, Skipped, retry scheduled, or retries exhausted after an error
log) and always logs; only the date-parse failure path lets an exception
escape `process_article` unhandled. -/
theorem handled_exit_when_date_parses (nlp : String → List Token) (fault : StoreFault)
    (retries : Nat) (s : SessionState) (d : ArticleInput) (ts : PDateTime)
    (h : parseDate d.pub_date = some ts) :
    handledExit (process_article nlp fault retries s d).outcome = true ∧
    (process_article nlp fault retries s d).logs ≠ [] := by
  rw [process_article_some nlp fault retries s d ts h]
  rcases sessionCommit fault { s with pending := s.pending ++ [mkArticle nlp d ts] }
    with ⟨s2, res⟩
  cases res with
  | ok => simp [handledExit]
  | integrityError => simp [handledExit]
  | otherError => by_cases hr : retries < max_retries <;> simp [handledExit, hr]

/-- Witness for the amended C5 at a concrete parseable payload. -/
theorem handled_exit_when_date_parses_witness :
    handledExit (process_article toyNlp .healthy 0 emptySession sampleInput).outcome = true ∧
    (process_article toyNlp .healthy 0 emptySession sampleInput).logs ≠ [] :=
  handled_exit_when_date_parses toyNlp .healthy 0 emptySession sampleInput
    ⟨2024, 1, 1, 10, 0, 0⟩ (by decide)

/-- Counterexample to claim C6: a store failure that is an integrity
violation other than the `source_url` duplicate (here injected by the
store model, e.g. another constraint) is handled by the same
`except IntegrityError` clause as a duplicate: the outcome is the silent
`Skipped`, not a scheduled retry, contrary to the claim that only the
duplicate is skipped and all other failures are retried. -/
theorem integrity_error_skip_counterexample :
    (process_article toyNlp .integrityOther 0 emptySession sampleInput).outcome = .skipped ∧
    (process_article toyNlp .integrityOther 0 emptySession sampleInput).outcome ≠
      .retryScheduled 10 := by
  decide

/-- Claim C6 amended: the task classifies failures by exception class, not
by cause: any commit failure raising `IntegrityError` — the duplicate and
every other integrity violation alike — is handled as the silent `Skipped`;
only non-IntegrityError failures (connectivity and the like) are treated as
transient and get a retry scheduled. -/
theorem failure_classification_by_exception_type (nlp : String → List Token) (retries : Nat)
    (s : SessionState) (d : ArticleInput) (ts : PDateTime)
    (h : parseDate d.pub_date = some ts) (hrb : s.needsRollback = false)
    (hr : retries < max_retries) :
    (process_article nlp .integrityOther retries s d).outcome = .skipped ∧
    (process_article nlp .fatalErr retries s d).outcome = .retryScheduled 10 := by
  constructor
  · rw [process_article_some nlp .integrityOther retries s d ts h,
      sessionCommit_integrityOther { s with pending := s.pending ++ [mkArticle nlp d ts] } hrb]
  · rw [process_article_fatal_eq nlp retries s d ts h, if_pos hr]

/-- Witness for the amended C6 at a concrete payload and clean session. -/
theorem failure_classification_by_exception_type_witness :
    (process_article toyNlp .integrityOther 0 emptySession sampleInput).outcome = .skipped ∧
    (process_article toyNlp .fatalErr 0 emptySession sampleInput).outcome =
      .retryScheduled 10 :=
  failure_classification_by_exception_type toyNlp 0 emptySession sampleInput
    ⟨2024, 1, 1, 10, 0, 0⟩ (by decide) rfl (by decide)

/-- Counterexample to claim C7: after a non-IntegrityError commit failure
the task returns without any rollback — the pending row is still attached
to the session and the transaction is left in the failed state, so the
insert did NOT roll back before returning to its caller. -/
theorem no_rollback_on_fatal_counterexample :
    (process_article toyNlp .fatalErr 0 emptySession sampleInput).state.pending ≠ [] ∧
    (process_article toyNlp .fatalErr 0 emptySession sampleInput).state.needsRollback =
      true := by
  decide

/-- Claim C7 amended: only the `IntegrityError` path rolls the transaction
back before returning (pending cleared, session clean); on any other commit
failure no rollback is issued — the pending row stays attached and the
session is left dirty. In either case no partial row becomes visible: the
committed rows are unchanged by every failed insert, including the
duplicate case under a healthy store. -/
theorem rollback_only_on_integrity_error (nlp : String → List Token) (retries : Nat)
    (s : SessionState) (d : ArticleInput) (ts : PDateTime)
    (h : parseDate d.pub_date = some ts) (hrb : s.needsRollback = false) :
    (process_article nlp .integrityOther retries s d).state =
      ⟨s.committed, [], false⟩ ∧
    ((process_article nlp .fatalErr retries s d).state.committed = s.committed ∧
      (process_article nlp .fatalErr retries s d).state.pending =
        s.pending ++ [mkArticle nlp d ts] ∧
      (process_article nlp .fatalErr retries s d).state.needsRollback = true) ∧
    (canInsert s.committed (s.pending ++ [mkArticle nlp d ts]) = false →
      (process_article nlp .healthy retries s d).state = ⟨s.committed, [], false⟩) := by
  refine ⟨?_, ?_, fun hdup => ?_⟩
  · rw [process_article_some nlp .integrityOther retries s d ts h,
      sessionCommit_integrityOther { s with pending := s.pending ++ [mkArticle nlp d ts] } hrb]
  · rw [process_article_fatal_eq nlp retries s d ts h]
    by_cases hr : retries < max_retries <;> simp [hr]
  · rw [process_article_some nlp .healthy retries s d ts h,
      sessionCommit_healthy_dup { s with pending := s.pending ++ [mkArticle nlp d ts] } hrb hdup]

/-- Witness for the amended C7 at a concrete payload and clean session. -/
theorem rollback_only_on_integrity_error_witness :
    (process_article toyNlp .integrityOther 0 emptySession sampleInput).state =
      ⟨emptySession.committed, [], false⟩ ∧
    ((process_article toyNlp .fatalErr 0 emptySession sampleInput).state.committed =
        emptySession.committed ∧
      (process_article toyNlp .fatalErr 0 emptySession sampleInput).state.pending =
        emptySession.pending ++
          [mkArticle toyNlp sampleInput ⟨2024, 1, 1, 10, 0, 0⟩] ∧
      (process_article toyNlp .fatalErr 0 emptySession sampleInput).state.needsRollback =
        true) ∧
    (canInsert emptySession.committed
        (emptySession.pending ++ [mkArticle toyNlp sampleInput ⟨2024, 1, 1, 10, 0, 0⟩]) =
        false →
      (process_article toyNlp .healthy 0 emptySession sampleInput).state =
        ⟨emptySession.committed, [], false⟩) :=
  rollback_only_on_integrity_error toyNlp 0 emptySession sampleInput
    ⟨2024, 1, 1, 10, 0, 0⟩ (by decide) rfl

/-- Claim C2: starting from the empty store, after any sequence of
`process_article` executions — any payloads, any store faults, any retry
counters — no two persisted rows share a `source_url`. -/
theorem committed_urls_unique_of_runSeq (nlp : String → List Token)
    (steps : List (StoreFault × Nat × ArticleInput)) :
    ((runSeq nlp steps emptySession).committed).Pairwise
      (fun a b => a.source_url ≠ b.source_url) :=
  (uniqueUrls_iff_pairwise _).mp (runSeq_preserves_unique nlp steps emptySession rfl)

/-- Counterexample to claim C3: with a store that always fails fatally,
the task body is executed 4 times (the initial attempt plus
`max_retries = 3` retries), not 3: Celery re-queues while the number of
already-performed retries is below `max_retries`. -/
theorem retry_bound_counterexample :
    (driveTask (fun _ => .fatalErr) toyNlp sampleInput emptySession).2.length = 4 ∧
    ¬ (driveTask (fun _ => .fatalErr) toyNlp sampleInput emptySession).2.length = 3 := by
  decide

/-- Claim C3 amended: with a store that always fails fatally, a task whose
date parses reaches the terminal failure after exactly 4 executions (the
initial attempt plus `max_retries = 3` retries), never more: the first
three executions each schedule a retry with the fixed countdown of 10, and
the fourth exhausts the budget and fails terminally. -/
theorem retry_bound_four_attempts (nlp : String → List Token) (d : ArticleInput)
    (s : SessionState) (ts : PDateTime) (h : parseDate d.pub_date = some ts) :
    (driveTask (fun _ => .fatalErr) nlp d s).2 =
      [.retryScheduled 10, .retryScheduled 10, .retryScheduled 10, .retriesExhausted] := by
  have key : ∀ (r : Nat) (st : SessionState),
      process_article nlp .fatalErr r st d =
        if r < max_retries then
          ⟨{ st with pending := st.pending ++ [mkArticle nlp d ts], needsRollback := true },
            .retryScheduled 10, [.info, .error]⟩
        else
          ⟨{ st with pending := st.pending ++ [mkArticle nlp d ts], needsRollback := true },
            .retriesExhausted, [.info, .error]⟩ :=
    fun r st => process_article_fatal_eq nlp r st d ts h
  simp [driveTask, driveFrom, key, isRetry, max_retries]

/-- Witness for the amended C3 at a concrete payload. -/
theorem retry_bound_four_attempts_witness :
    (driveTask (fun _ => .fatalErr) toyNlp sampleInput emptySession).2 =
      [.retryScheduled 10, .retryScheduled 10, .retryScheduled 10, .retriesExhausted] :=
  retry_bound_four_attempts toyNlp sampleInput emptySession ⟨2024, 1, 1, 10, 0, 0⟩ (by decide)

theorem process_article_healthy_fresh (nlp : String → List Token) (d : ArticleInput)
    (cs : List Article) (ts : PDateTime) (h : parseDate d.pub_date = some ts)
    (hocc : urlOccurs d.source_url cs = false) :
    process_article nlp .healthy 0 ⟨cs, [], false⟩ d =
      ⟨⟨cs ++ [mkArticle nlp d ts], [], false⟩, .succeeded, [.info, .info]⟩ := by
  have hins : canInsert cs [mkArticle nlp d ts] = true := by
    rw [canInsert_single]
    simp only [mkArticle]
    simp [hocc]
  rw [process_article_some nlp .healthy 0 ⟨cs, [], false⟩ d ts h]
  dsimp only [List.nil_append]
  rw [sessionCommit_healthy_ok ⟨cs, [mkArticle nlp d ts], false⟩ rfl hins]

theorem process_article_healthy_dup (nlp : String → List Token) (d : ArticleInput)
    (cs : List Article) (ts : PDateTime) (h : parseDate d.pub_date = some ts)
    (hocc : urlOccurs d.source_url cs = true) :
    process_article nlp .healthy 0 ⟨cs, [], false⟩ d =
      ⟨⟨cs, [], false⟩, .skipped, [.info, .warning]⟩ := by
  have hins : canInsert cs [mkArticle nlp d ts] = false := by
    rw [canInsert_single]
    simp only [mkArticle]
    simp [hocc]
  rw [process_article_some nlp .healthy 0 ⟨cs, [], false⟩ d ts h]
  dsimp only [List.nil_append]
  rw [sessionCommit_healthy_dup ⟨cs, [mkArticle nlp d ts], false⟩ rfl hins]

/-- Claim C1: with a healthy store and a clean session whose table
satisfies the uniqueness invariant, submitting the same payload (same
`source_url`) twice leaves exactly one persisted row with that
`source_url`; the second execution ends in `Skipped`, with the duplicate
logged at warning level rather than propagated as a failure. -/
theorem process_article_idempotent (nlp : String → List Token) (d : ArticleInput)
    (s : SessionState) (ts : PDateTime)
    (h : parseDate d.pub_date = some ts) (hpend : s.pending = [])
    (hrb : s.needsRollback = false) (huniq : uniqueUrls s.committed = true) :
    countUrl d.source_url
      ((process_article nlp .healthy 0
          (process_article nlp .healthy 0 s d).state d).state).committed = 1 ∧
    (process_article nlp .healthy 0
        (process_article nlp .healthy 0 s d).state d).outcome = .skipped ∧
    (process_article nlp .healthy 0
        (process_article nlp .healthy 0 s d).state d).logs = [.info, .warning] := by
  obtain ⟨cs, pend, rb⟩ := s
  dsimp only at hpend hrb huniq
  subst hpend
  subst hrb
  cases hocc : urlOccurs d.source_url cs with
  | false =>
    rw [process_article_healthy_fresh nlp d cs ts h hocc]
    dsimp only
    have hocc2 : urlOccurs d.source_url (cs ++ [mkArticle nlp d ts]) = true := by
      rw [urlOccurs_append, hocc]
      simp [urlOccurs, mkArticle]
    rw [process_article_healthy_dup nlp d (cs ++ [mkArticle nlp d ts]) ts h hocc2]
    refine ⟨?_, rfl, rfl⟩
    rw [countUrl_append, countUrl_eq_zero hocc]
    have : countUrl (mkArticle nlp d ts).source_url [mkArticle nlp d ts] = 1 :=
      countUrl_single_self (mkArticle nlp d ts)
    simpa [mkArticle] using this
  | true =>
    rw [process_article_healthy_dup nlp d cs ts h hocc]
    dsimp only
    rw [process_article_healthy_dup nlp d cs ts h hocc]
    exact ⟨countUrl_eq_one_of_unique huniq hocc, rfl, rfl⟩

/-- Witness for C1 at the spec's end-to-end scenario entry against the
empty store. -/
theorem process_article_idempotent_witness :
    countUrl sampleInput.source_url
      ((process_article toyNlp .healthy 0
          (process_article toyNlp .healthy 0 emptySession sampleInput).state
          sampleInput).state).committed = 1 ∧
    (process_article toyNlp .healthy 0
        (process_article toyNlp .healthy 0 emptySession sampleInput).state
        sampleInput).outcome = .skipped ∧
    (process_article toyNlp .healthy 0
        (process_article toyNlp .healthy 0 emptySession sampleInput).state
        sampleInput).logs = [.info, .warning] :=
  process_article_idempotent toyNlp sampleInput emptySession ⟨2024, 1, 1, 10, 0, 0⟩
    (by decide) rfl rfl rfl

example : parseDate "Mon, 01 Jan 2024 10:00:00 GMT" = some ⟨2024, 1, 1, 10, 0, 0⟩ := by decide

example : parseDate "No publication date available" = none := by decide

example : parseDate "not a date" = none := by decide

example : classify_article toyNlp "A major earthquake struck today" = "Natural Disasters" := by
  decide

end NewsApp
